import Mathlib

/-!
Shallow embedding of the docker volume backup orchestrator
(src/main.rs together with src/types.rs).

External docker invocations are modelled by an environment oracle
(DockerEnv) deciding the outcome of each subprocess call, and every
function additionally returns the ordered trace of invocations it issued.
-/

/-- Marker label value for helper containers (constant TYPE_BACKUPCONTAINER in main.rs). -/
def TYPE_BACKUPCONTAINER : String := "backupcontainer"

/-- Command line arguments (struct CliArguments in main.rs). -/
structure CliArguments where
  stop_start : Bool
  image : String
  docker : String
  deriving Repr, DecidableEq

/-- Record produced by listing running containers (struct PsInfo in types.rs). -/
structure PsInfo where
  names : String
  deriving Repr, DecidableEq

/-- One mount record of an inspected container (struct Mounts in types.rs). -/
structure Mounts where
  destination : String
  deriving Repr, DecidableEq

/-- Container configuration holding the label map (struct ContainerConfig in types.rs).
The Rust HashMap is embedded as an association list consulted with lookup. -/
structure ContainerConfig where
  labels : List (String × String)
  deriving Repr, DecidableEq

/-- Inspection record of one container (struct ContainerInfo in types.rs). -/
structure ContainerInfo where
  id : String
  mounts : List Mounts
  config : ContainerConfig
  deriving Repr, DecidableEq

/-- Opaque error value (struct DockerError in types.rs). -/
structure DockerError where
  message : String
  deriving Repr, DecidableEq

/-- One external docker invocation, as issued by the orchestrator. -/
inductive Invocation where
  | ps : Invocation
  | inspect (name : String) : Invocation
  | stop (id : String) : Invocation
  | start (id : String) : Invocation
  | run (args : List String) : Invocation
  deriving Repr, DecidableEq

/-- Environment oracle fixing the outcome of every external docker call:
the decoded ps listing, the decoded inspect answer per container name, and
the exit status of stop, start and run invocations. -/
structure DockerEnv where
  psResult : Except DockerError (List PsInfo)
  inspectResult : String → Except DockerError (List ContainerInfo)
  stopResult : String → Bool
  startResult : String → Bool
  runResult : List String → Bool

/-- Character level replacement performed by sanitize: the Rust replace of
every slash by an underscore acts independently on each character. -/
def san_char (c : Char) : Char := if c = '/' then '_' else c

/-- Sanitize a path into part of the backup filename (fn sanitize in main.rs). -/
def sanitize (s : String) : String := String.mk (s.data.map san_char)

/-- Tar path passed to the helper container, from the format string
building /backupdest/ then the container name, the sanitized mount
destination and the .tar suffix (fn backup_all_mounts in main.rs). -/
def archive_filename (names destination : String) : String :=
  "/backupdest/" ++ names ++ sanitize destination ++ ".tar"

/-- Argument vector of the helper run invocation for one mount
(the docker run call inside the mount loop of backup_all_mounts). -/
def archiveArgs (cli_args : CliArguments) (container_info : ContainerInfo)
    (container : PsInfo) (mount : Mounts) : List String :=
  ["run", "--rm", "--label", "type=" ++ TYPE_BACKUPCONTAINER, "-v", ".:/backupdest",
   "--volumes-from", container_info.id, cli_args.image, "tar", "cvf",
   archive_filename container.names mount.destination, mount.destination]

/-- The per mount loop of backup_all_mounts: archives each mount in order,
counting failed run invocations, never stopping early. Returns the error
count and the trace of run invocations. -/
def runMounts (env : DockerEnv) (cli_args : CliArguments) (container_info : ContainerInfo)
    (container : PsInfo) : List Mounts → Nat × List Invocation
  | [] => (0, [])
  | mount :: rest =>
    let args := archiveArgs cli_args container_info container mount
    let r := runMounts env cli_args container_info container rest
    ((if env.runResult args then r.1 else r.1 + 1), Invocation.run args :: r.2)

/-- Label consulted by the helper check in backup_all_mounts: the value of
the key type in the label map, defaulting to a dash. -/
def typeLabel (container_info : ContainerInfo) : String :=
  (container_info.config.labels.lookup "type").getD "-"

/-- Backup of all mounts of one container (fn backup_all_mounts in main.rs).
Returns the Rust Result value, paired with the invocation trace: a helper
labelled container is skipped with success and no invocations; with
stop_start the container is stopped first, a stop failure returning the
error immediately; each mount is archived via a run invocation; with
stop_start the container is started again, a start failure returning the
error; otherwise Ok of whether the mount error count is zero. -/
def backup_all_mounts (env : DockerEnv) (container_info : ContainerInfo)
    (container : PsInfo) (cli_args : CliArguments) :
    Except DockerError Bool × List Invocation :=
  if typeLabel container_info = TYPE_BACKUPCONTAINER then
    (Except.ok true, [])
  else if cli_args.stop_start && !(env.stopResult container_info.id) then
    (Except.error ⟨""⟩, [Invocation.stop container_info.id])
  else
    let em := runMounts env cli_args container_info container container_info.mounts
    let trace := (if cli_args.stop_start then [Invocation.stop container_info.id] else [])
      ++ em.2
      ++ (if cli_args.stop_start then [Invocation.start container_info.id] else [])
    if cli_args.stop_start && !(env.startResult container_info.id) then
      (Except.error ⟨""⟩, trace)
    else
      (Except.ok (em.1 == 0), trace)

/-- The container loop of fn backup_container in main.rs, threading the
has_errors flag. An inspect error or an error from backup_all_mounts is
returned immediately by the question mark operator, abandoning the rest of
the batch; an empty inspect answer is only logged, leaving has_errors
untouched; an Ok false from backup_all_mounts sets has_errors. The final
value is Ok of the negation of has_errors. -/
def containerLoop (env : DockerEnv) (cli_args : CliArguments) :
    List PsInfo → Bool → Except DockerError Bool × List Invocation
  | [], has_errors => (Except.ok (!has_errors), [])
  | p :: rest, has_errors =>
    match env.inspectResult p.names with
    | Except.error e => (Except.error e, [Invocation.inspect p.names])
    | Except.ok inspected =>
      match inspected.head? with
      | none =>
        let r := containerLoop env cli_args rest has_errors
        (r.1, Invocation.inspect p.names :: r.2)
      | some container_info =>
        let b := backup_all_mounts env container_info p cli_args
        match b.1 with
        | Except.error e => (Except.error e, Invocation.inspect p.names :: b.2)
        | Except.ok ok =>
          let r := containerLoop env cli_args rest (has_errors || !ok)
          (r.1, Invocation.inspect p.names :: (b.2 ++ r.2))

/-- Inspect each listed container and back it up (fn backup_container in main.rs). -/
def backup_container (env : DockerEnv) (ps_info : List PsInfo)
    (cli_args : CliArguments) : Except DockerError Bool × List Invocation :=
  containerLoop env cli_args ps_info false

/-- Process level outcome: the two ExitCode values of fn main, or the panic
raised by expect when backup_container returns an error. -/
inductive ProcExit where
  | SUCCESS : ProcExit
  | FAILURE : ProcExit
  | PANIC : ProcExit
  deriving Repr, DecidableEq

/-- Entry point (fn main in main.rs): lists the running containers; on a
listing error it logs and exits SUCCESS; otherwise it runs the batch, a
batch error panicking via expect, and maps the returned boolean true to
FAILURE and false to SUCCESS. -/
def main_run (env : DockerEnv) (cli_args : CliArguments) : ProcExit × List Invocation :=
  match env.psResult with
  | Except.error _ => (ProcExit.SUCCESS, [Invocation.ps])
  | Except.ok ps_info =>
    let b := backup_container env ps_info cli_args
    match b.1 with
    | Except.error _ => (ProcExit.PANIC, Invocation.ps :: b.2)
    | Except.ok ok =>
      ((if ok then ProcExit.FAILURE else ProcExit.SUCCESS), Invocation.ps :: b.2)

/-- Predicate picking out the run invocations of a trace. -/
def isRun : Invocation → Bool
  | Invocation.run _ => true
  | _ => false

/-! Concrete containers, environments and argument sets used in the
closed evaluations below. -/

/-- Container with one mount at /data and no labels. -/
def ciWeb : ContainerInfo := ⟨"idweb", [⟨"/data"⟩], ⟨[]⟩⟩

/-- Container with no mounts and no labels. -/
def ciA : ContainerInfo := ⟨"ida", [], ⟨[]⟩⟩

/-- Container carrying the backup helper label. -/
def ciHelper : ContainerInfo := ⟨"idh", [⟨"/x"⟩], ⟨[("type", "backupcontainer")]⟩⟩

/-- Environment in which every external invocation succeeds and one
container named web is running. -/
def envC1 : DockerEnv :=
  { psResult := Except.ok [⟨"web"⟩]
  , inspectResult := fun n => if n = "web" then Except.ok [ciWeb] else Except.error ⟨""⟩
  , stopResult := fun _ => true
  , startResult := fun _ => true
  , runResult := fun _ => true }

/-- Environment with two running containers a and b in which every stop
invocation fails. -/
def envC2 : DockerEnv :=
  { psResult := Except.ok [⟨"a"⟩, ⟨"b"⟩]
  , inspectResult := fun n =>
      if n = "a" then Except.ok [ciA]
      else if n = "b" then Except.ok [⟨"idb", [], ⟨[]⟩⟩] else Except.error ⟨""⟩
  , stopResult := fun _ => false
  , startResult := fun _ => true
  , runResult := fun _ => true }

/-- Environment in which inspect decodes to an empty array. -/
def envC4 : DockerEnv :=
  { psResult := Except.ok [⟨"c"⟩]
  , inspectResult := fun _ => Except.ok []
  , stopResult := fun _ => true
  , startResult := fun _ => true
  , runResult := fun _ => true }

/-- Environment in which listing the running containers fails. -/
def envList : DockerEnv :=
  { psResult := Except.error ⟨"boom"⟩
  , inspectResult := fun _ => Except.error ⟨""⟩
  , stopResult := fun _ => true
  , startResult := fun _ => true
  , runResult := fun _ => true }

/-- Arguments with the stop and start bracket disabled. -/
def argsPlain : CliArguments := ⟨false, "ubuntu", "/usr/bin/docker"⟩

/-- Arguments with the stop and start bracket enabled. -/
def argsStop : CliArguments := ⟨true, "ubuntu", "/usr/bin/docker"⟩

/-! Helper lemmas shared by the claim theorems. -/

/-- The trace of the mount loop is one run invocation per mount, in mount
order, independent of the run outcomes. -/
theorem runMounts_trace (env : DockerEnv) (a : CliArguments) (ci : ContainerInfo)
    (c : PsInfo) (ms : List Mounts) :
    (runMounts env a ci c ms).2 = ms.map (fun m => Invocation.run (archiveArgs a ci c m)) := by
  induction ms with
  | nil => rfl
  | cons m rest ih => simp [runMounts, ih]

/-- The sanitizing character map never produces a slash. -/
theorem san_char_ne_slash (c : Char) : san_char c ≠ '/' := by
  unfold san_char
  split
  · decide
  · assumption

/-- The sanitizing character map is injective away from the underscore. -/
theorem san_char_inj (a b : Char) (ha : a ≠ '_') (hb : b ≠ '_')
    (h : san_char a = san_char b) : a = b := by
  unfold san_char at h
  by_cases h1 : a = '/' <;> by_cases h2 : b = '/'
  · rw [h1, h2]
  · rw [if_pos h1, if_neg h2] at h
    exact absurd h.symm hb
  · rw [if_pos h2, if_neg h1] at h
    exact absurd h ha
  · rwa [if_neg h1, if_neg h2] at h

/-- Mapping the sanitizing character map over underscore free character
lists is injective. -/
theorem map_san_inj : ∀ (l1 l2 : List Char), (∀ c ∈ l1, c ≠ '_') → (∀ c ∈ l2, c ≠ '_') →
    l1.map san_char = l2.map san_char → l1 = l2
  | [], [], _, _, _ => rfl
  | [], _ :: _, _, _, h => by simp at h
  | _ :: _, [], _, _, h => by simp at h
  | a :: l1, b :: l2, h1, h2, h => by
    simp only [List.map_cons, List.cons.injEq] at h
    have hab := san_char_inj a b (h1 a (by simp)) (h2 b (by simp)) h.1
    have htl := map_san_inj l1 l2 (fun c hc => h1 c (by simp [hc]))
      (fun c hc => h2 c (by simp [hc])) h.2
    rw [hab, htl]

/-- Strings with equal character data are equal. -/
theorem string_data_inj (a b : String) (h : a.data = b.data) : a = b := by
  cases a
  cases b
  exact congrArg String.mk h

/-! Claim theorems. -/

/-- Claim C1. The claim states that the process reports failure iff some
container failed, a fully successful batch reporting success. The code
inverts the mapping: backup_container returns Ok true exactly when no
container failed, and fn main maps true to ExitCode FAILURE. Evaluated at
the failing input, a single container batch in which every invocation
succeeds yields the batch value Ok true and exit code FAILURE. -/
theorem c1_all_success_exits_failure :
    (backup_container envC1 [⟨"web"⟩] argsPlain).1 = Except.ok true ∧
      (main_run envC1 argsPlain).1 = ProcExit.FAILURE :=
  ⟨rfl, rfl⟩

/-- Claim C2, counterexample. With two running containers a and b and a
failing stop invocation, the batch result is the propagated error (never
folded into the batch level boolean) and container b is never inspected:
the failure is not recovered at the container boundary, refuting the
claim at this concrete input. -/
theorem c2_stop_failure_aborts_batch :
    (backup_container envC2 [⟨"a"⟩, ⟨"b"⟩] argsStop).1 = Except.error ⟨""⟩ ∧
      Invocation.inspect "b" ∉ (backup_container envC2 [⟨"a"⟩, ⟨"b"⟩] argsStop).2 :=
  ⟨rfl, by decide⟩

/-- Claim C2, amended. Recovery at the container boundary holds only for
an empty inspect answer and for mount archive failures (an Ok value from
backup_all_mounts): in these cases the loop continues with the remaining
containers and folds the outcome into the batch level boolean. A failed
inspect invocation, or an error from backup_all_mounts (failed stop or
failed start), is returned immediately and the remaining containers are
never processed. -/
theorem c2_recovery_and_abort (env : DockerEnv) (a : CliArguments) (p : PsInfo)
    (rest : List PsInfo) (h : Bool) :
    (env.inspectResult p.names = Except.ok [] →
      containerLoop env a (p :: rest) h =
        ((containerLoop env a rest h).1,
          Invocation.inspect p.names :: (containerLoop env a rest h).2)) ∧
    (∀ ci tl b tr, env.inspectResult p.names = Except.ok (ci :: tl) →
      backup_all_mounts env ci p a = (Except.ok b, tr) →
      containerLoop env a (p :: rest) h =
        ((containerLoop env a rest (h || !b)).1,
          Invocation.inspect p.names :: (tr ++ (containerLoop env a rest (h || !b)).2))) ∧
    (∀ e, env.inspectResult p.names = Except.error e →
      containerLoop env a (p :: rest) h = (Except.error e, [Invocation.inspect p.names])) ∧
    (∀ ci tl e tr, env.inspectResult p.names = Except.ok (ci :: tl) →
      backup_all_mounts env ci p a = (Except.error e, tr) →
      containerLoop env a (p :: rest) h =
        (Except.error e, Invocation.inspect p.names :: tr)) := by
  refine ⟨?_, ?_, ?_, ?_⟩
  · intro hins
    simp [containerLoop, hins]
  · intro ci tl b tr hins hmb
    simp [containerLoop, hins, hmb]
  · intro e hins
    simp [containerLoop, hins]
  · intro ci tl e tr hins hmb
    simp [containerLoop, hins, hmb]

/-- Claim C2, witness: the abort conjunct applied to the concrete two
container environment with a failing stop invocation. -/
theorem c2_recovery_and_abort_witness :
    containerLoop envC2 argsStop [⟨"a"⟩, ⟨"b"⟩] false =
      (Except.error ⟨""⟩, [Invocation.inspect "a", Invocation.stop "ida"]) :=
  (c2_recovery_and_abort envC2 argsStop ⟨"a"⟩ [⟨"b"⟩] false).2.2.2
    ciA [] ⟨""⟩ [Invocation.stop "ida"] rfl rfl

/-- Claim C3. For a non helper container with the stop and start bracket
enabled whose stop invocation fails, backup_all_mounts returns the error
(the container outcome is a failure, which fn main surfaces as a panic)
and its trace is exactly the stop invocation: zero archive run
invocations are issued. -/
theorem c3_stop_failure_no_archive (env : DockerEnv) (ci : ContainerInfo)
    (c : PsInfo) (a : CliArguments)
    (hh : typeLabel ci ≠ TYPE_BACKUPCONTAINER)
    (hss : a.stop_start = true)
    (hstop : env.stopResult ci.id = false) :
    backup_all_mounts env ci c a = (Except.error ⟨""⟩, [Invocation.stop ci.id]) ∧
      ((backup_all_mounts env ci c a).2.filter isRun) = [] := by
  simp [backup_all_mounts, hh, hss, hstop, isRun]

/-- Claim C3, witness at the concrete environment with a failing stop. -/
theorem c3_stop_failure_no_archive_witness :
    backup_all_mounts envC2 ciA ⟨"a"⟩ argsStop = (Except.error ⟨""⟩, [Invocation.stop "ida"]) ∧
      ((backup_all_mounts envC2 ciA ⟨"a"⟩ argsStop).2.filter isRun) = [] :=
  c3_stop_failure_no_archive envC2 ciA ⟨"a"⟩ argsStop (by decide) rfl rfl

/-- Claim C4. The claim states that an inspect answer with zero elements
is treated as a per container failure, making the batch level result a
failure. The code only logs: evaluated at the failing input, a single
container batch whose inspect decodes to an empty array leaves has_errors
false, so backup_container returns the all success value Ok true with no
further invocations, indistinguishable from a fully successful batch. -/
theorem c4_empty_inspect_not_a_failure :
    backup_container envC4 [⟨"c"⟩] argsPlain = (Except.ok true, [Invocation.inspect "c"]) :=
  rfl

/-- Claim C5. A container whose label map carries the key type with the
backup helper marker value is skipped: backup_all_mounts returns success
with an empty trace, so zero stop, run and start invocations are issued,
for every environment and every argument set. -/
theorem c5_helper_container_skipped (env : DockerEnv) (ci : ContainerInfo)
    (c : PsInfo) (a : CliArguments)
    (hl : ci.config.labels.lookup "type" = some TYPE_BACKUPCONTAINER) :
    backup_all_mounts env ci c a = (Except.ok true, []) := by
  simp [backup_all_mounts, typeLabel, hl]

/-- Claim C5, witness at the concrete helper labelled container with the
stop and start bracket enabled. -/
theorem c5_helper_container_skipped_witness :
    backup_all_mounts envC1 ciHelper ⟨"h"⟩ argsStop = (Except.ok true, []) :=
  c5_helper_container_skipped envC1 ciHelper ⟨"h"⟩ argsStop rfl

/-- Claim C6. For a non helper container with the stop and start bracket
enabled whose stop succeeds, the trace is the stop invocation, then one
run invocation per mount in mount order, then exactly one start
invocation at the very end, whatever the run outcomes and even when the
start invocation itself fails. -/
theorem c6_start_once_after_archiving (env : DockerEnv) (ci : ContainerInfo)
    (c : PsInfo) (a : CliArguments)
    (hh : typeLabel ci ≠ TYPE_BACKUPCONTAINER)
    (hss : a.stop_start = true)
    (hstop : env.stopResult ci.id = true) :
    (backup_all_mounts env ci c a).2 =
      Invocation.stop ci.id ::
        (ci.mounts.map fun m => Invocation.run (archiveArgs a ci c m)) ++
          [Invocation.start ci.id] := by
  cases hstart : env.startResult ci.id <;>
    simp [backup_all_mounts, hh, hss, hstop, hstart, runMounts_trace]

/-- Claim C6, witness at the concrete one mount container with a
successful stop. -/
theorem c6_start_once_after_archiving_witness :
    (backup_all_mounts envC1 ciWeb ⟨"web"⟩ argsStop).2 =
      Invocation.stop ciWeb.id ::
        (ciWeb.mounts.map fun m => Invocation.run (archiveArgs argsStop ciWeb ⟨"web"⟩ m)) ++
          [Invocation.start ciWeb.id] :=
  c6_start_once_after_archiving envC1 ciWeb ⟨"web"⟩ argsStop (by decide) rfl rfl

/-- Claim C7. For a non helper container that reaches archiving (the stop
and start bracket disabled, or the stop invocation successful), the run
invocations of the trace are exactly one per mount reported by inspect,
in mount order; the statement holds for every assignment of run outcomes,
so one failing tar invocation removes none of the remaining mounts. -/
theorem c7_archive_per_mount_in_order (env : DockerEnv) (ci : ContainerInfo)
    (c : PsInfo) (a : CliArguments)
    (hh : typeLabel ci ≠ TYPE_BACKUPCONTAINER)
    (hreach : a.stop_start = false ∨ env.stopResult ci.id = true) :
    ((backup_all_mounts env ci c a).2.filter isRun) =
      ci.mounts.map (fun m => Invocation.run (archiveArgs a ci c m)) := by
  have hfilter : ∀ ms : List Mounts,
      (ms.map (fun m => Invocation.run (archiveArgs a ci c m))).filter isRun =
        ms.map (fun m => Invocation.run (archiveArgs a ci c m)) := by
    intro ms
    apply List.filter_eq_self.mpr
    intro x hx
    simp only [List.mem_map] at hx
    obtain ⟨m, _, rfl⟩ := hx
    rfl
  rcases hreach with hss | hstop
  · cases hstart : env.startResult ci.id <;>
      simp [backup_all_mounts, hh, hss, hstart, runMounts_trace, hfilter, isRun]
  · cases hss : a.stop_start <;> cases hstart : env.startResult ci.id <;>
      simp [backup_all_mounts, hh, hss, hstop, hstart, runMounts_trace, hfilter, isRun]

/-- Claim C7, witness at the concrete one mount container without the
stop and start bracket. -/
theorem c7_archive_per_mount_in_order_witness :
    ((backup_all_mounts envC1 ciWeb ⟨"web"⟩ argsPlain).2.filter isRun) =
      ciWeb.mounts.map (fun m => Invocation.run (archiveArgs argsPlain ciWeb ⟨"web"⟩ m)) :=
  c7_archive_per_mount_in_order envC1 ciWeb ⟨"web"⟩ argsPlain (by decide) (Or.inl rfl)

/-- Claim C8, counterexample. The distinct mount destinations /a/b and
/a_b of one container web sanitize to the same string, so their archive
filenames coincide: the derivation is not collision resistant over all
distinct destination paths. -/
theorem c8_distinct_paths_same_filename :
    archive_filename "web" "/a/b" = archive_filename "web" "/a_b" ∧
      ("/a/b" : String) ≠ "/a_b" :=
  ⟨rfl, by decide⟩

/-- Claim C8, amended. For a fixed container name, the archive filename
derivation maps two destination paths that contain no underscore to the
same filename only when the paths are equal, and the sanitized mount part
of the filename contains no path separator. -/
theorem c8_injective_without_underscores (name da db : String)
    (h1 : ∀ ch ∈ da.data, ch ≠ '_') (h2 : ∀ ch ∈ db.data, ch ≠ '_')
    (heq : archive_filename name da = archive_filename name db) :
    da = db ∧ ∀ ch ∈ (sanitize da).data, ch ≠ '/' := by
  refine ⟨?_, ?_⟩
  · have h := congrArg String.data heq
    simp only [archive_filename, String.data_append] at h
    have h4 := List.append_cancel_right h
    have h5 := List.append_cancel_left h4
    have h3 : da.data.map san_char = db.data.map san_char := h5
    exact string_data_inj da db (map_san_inj da.data db.data h1 h2 h3)
  · intro ch hch
    have hex : ∃ x ∈ da.data, san_char x = ch := by
      simpa [sanitize] using hch
    obtain ⟨x, _, rfl⟩ := hex
    exact san_char_ne_slash x

/-- Claim C8, witness at the underscore free destination /data of the
container web. -/
theorem c8_injective_without_underscores_witness :
    ("/data" : String) = "/data" ∧ ∀ ch ∈ (sanitize "/data").data, ch ≠ '/' :=
  c8_injective_without_underscores "web" "/data" "/data" (by decide) (by decide) rfl

/-- Claim C9. When listing the running containers fails, fn main logs the
error and returns ExitCode SUCCESS, and the trace holds only the ps
invocation: no per container work occurs and the process exits in the
recoverable state. -/
theorem c9_list_failure_recoverable (env : DockerEnv) (a : CliArguments)
    (e : DockerError) (h : env.psResult = Except.error e) :
    main_run env a = (ProcExit.SUCCESS, [Invocation.ps]) := by
  simp [main_run, h]

/-- Claim C9, witness at the concrete environment whose listing fails. -/
theorem c9_list_failure_recoverable_witness :
    main_run envList argsPlain = (ProcExit.SUCCESS, [Invocation.ps]) :=
  c9_list_failure_recoverable envList argsPlain ⟨"boom"⟩ rfl

/-- Claim C10. A non helper container whose inspect reports an empty
mount list is reported successful with zero run invocations: without the
stop and start bracket the trace is empty, and with the bracket enabled
and both lifecycle invocations succeeding the trace is exactly the stop
invocation followed by the start invocation. -/
theorem c10_empty_mounts_success (env : DockerEnv) (ci : ContainerInfo)
    (c : PsInfo) (a : CliArguments)
    (hh : typeLabel ci ≠ TYPE_BACKUPCONTAINER)
    (hm : ci.mounts = []) :
    (a.stop_start = false → backup_all_mounts env ci c a = (Except.ok true, [])) ∧
    (a.stop_start = true → env.stopResult ci.id = true → env.startResult ci.id = true →
      backup_all_mounts env ci c a =
        (Except.ok true, [Invocation.stop ci.id, Invocation.start ci.id])) := by
  constructor
  · intro hss
    simp [backup_all_mounts, hh, hss, hm, runMounts]
  · intro hss hstop hstart
    simp [backup_all_mounts, hh, hss, hm, hstop, hstart, runMounts]

/-- Claim C10, witness at the concrete mountless container, with and
without the stop and start bracket. -/
theorem c10_empty_mounts_success_witness :
    backup_all_mounts envC1 ciA ⟨"a"⟩ argsPlain = (Except.ok true, []) ∧
      backup_all_mounts envC1 ciA ⟨"a"⟩ argsStop =
        (Except.ok true, [Invocation.stop "ida", Invocation.start "ida"]) :=
  ⟨(c10_empty_mounts_success envC1 ciA ⟨"a"⟩ argsPlain (by decide) rfl).1 rfl,
   (c10_empty_mounts_success envC1 ciA ⟨"a"⟩ argsStop (by decide) rfl).2 rfl rfl rfl⟩
